import Mathlib

/-!
Shallow embedding of the `edo-time-jp` core computation engine.

Modelling conventions used throughout this development:
* an instant (JavaScript `Date`) is embedded as its millisecond timestamp,
  a rational number where the surrounding code only adds, compares and
  divides, and a real number where trigonometric functions are involved;
* JavaScript's `%` operator (remainder with the sign of the dividend) is
  embedded as `jsMod`, built from truncation toward zero;
* the deployment modelled is the one the repository targets: browser and
  location both in the `Asia/Tokyo` zone (fixed offset UTC+9, no DST), so
  `toTimeZone` is the identity and local civil noon on a calendar day is
  `noonTokyoMs`;
* the two reference data files (`lunar_2026_2028.csv`,
  `newMoonDates.json`) are not part of the source tree; where their
  contents matter they are modelled from the specification, marked by a
  doc comment beginning `Modelled from the spec:`.
-/

namespace EdoTimeJp

/-! ## JavaScript numeric primitives -/

/-- JavaScript `Math.trunc` / the implicit truncation in the `%` operator:
rounding toward zero. -/
def jsTrunc {α : Type} [LinearOrderedField α] [FloorRing α] (z : α) : ℤ :=
  if 0 ≤ z then ⌊z⌋ else ⌈z⌉

/-- JavaScript's `%` operator: `x % y = x - y * trunc (x / y)`, so the
result carries the sign of the dividend. -/
def jsMod {α : Type} [LinearOrderedField α] [FloorRing α] (x y : α) : α :=
  x - y * (jsTrunc (x / y) : α)

/-- JavaScript `Math.round`: floor of `x + 1/2`. -/
def jsRound {α : Type} [LinearOrderedField α] [FloorRing α] (x : α) : ℤ :=
  ⌊x + 1 / 2⌋

/-- The `% 360` plus negative-correction idiom used by `getSolarLongitude`
and `getSolarTerm` to bring a longitude into `[0, 360)`. -/
def normalize360 {α : Type} [LinearOrderedField α] [FloorRing α] (x : α) : α :=
  let n := jsMod x 360
  if n < 0 then n + 360 else n

theorem jsMod_nonneg_of_nonneg {α : Type} [LinearOrderedField α] [FloorRing α]
    (x y : α) (hx : 0 ≤ x) (hy : 0 < y) : 0 ≤ jsMod x y := by
  unfold jsMod jsTrunc
  have hdiv : 0 ≤ x / y := div_nonneg hx hy.le
  rw [if_pos hdiv]
  have h1 : (⌊x / y⌋ : α) ≤ x / y := Int.floor_le _
  have h2 : y * (⌊x / y⌋ : α) ≤ y * (x / y) := by
    exact mul_le_mul_of_nonneg_left h1 hy.le
  have h3 : y * (x / y) = x := by field_simp
  linarith

theorem jsMod_lt_of_nonneg {α : Type} [LinearOrderedField α] [FloorRing α]
    (x y : α) (hx : 0 ≤ x) (hy : 0 < y) : jsMod x y < y := by
  unfold jsMod jsTrunc
  have hdiv : 0 ≤ x / y := div_nonneg hx hy.le
  rw [if_pos hdiv]
  have h1 : x / y < (⌊x / y⌋ : α) + 1 := Int.lt_floor_add_one _
  have h2 : y * (x / y) < y * ((⌊x / y⌋ : α) + 1) := by
    exact mul_lt_mul_of_pos_left h1 hy
  have h3 : y * (x / y) = x := by field_simp
  nlinarith

/-- The normalized value always lands in `[0, 360)`. -/
theorem normalize360_mem {α : Type} [LinearOrderedField α] [FloorRing α]
    (x : α) : 0 ≤ normalize360 x ∧ normalize360 x < 360 := by
  unfold normalize360 jsMod jsTrunc
  rcases le_or_lt 0 (x / 360) with hdiv | hdiv
  · rw [if_pos hdiv]
    have h1 : (⌊x / 360⌋ : α) ≤ x / 360 := Int.floor_le _
    have h2 : x / 360 < (⌊x / 360⌋ : α) + 1 := Int.lt_floor_add_one _
    have hn1 : 0 ≤ x - 360 * (⌊x / 360⌋ : α) := by nlinarith
    have hn2 : x - 360 * (⌊x / 360⌋ : α) < 360 := by nlinarith
    rw [if_neg (by linarith)]
    exact ⟨hn1, hn2⟩
  · rw [if_neg (not_le.mpr hdiv)]
    have h1 : x / 360 ≤ (⌈x / 360⌉ : α) := Int.le_ceil _
    have h2 : (⌈x / 360⌉ : α) < x / 360 + 1 := Int.ceil_lt_add_one _
    have hn1 : x - 360 * (⌈x / 360⌉ : α) ≤ 0 := by nlinarith
    have hn2 : -360 < x - 360 * (⌈x / 360⌉ : α) := by nlinarith
    rcases lt_or_le (x - 360 * (⌈x / 360⌉ : α)) 0 with hneg | hpos
    · rw [if_pos hneg]
      constructor <;> linarith
    · rw [if_neg (not_lt.mpr hpos)]
      constructor <;> linarith

/-- Normalizing an already-normalized value is the identity. -/
theorem normalize360_of_mem {α : Type} [LinearOrderedField α] [FloorRing α]
    (x : α) (h0 : 0 ≤ x) (h1 : x < 360) : normalize360 x = x := by
  unfold normalize360 jsMod jsTrunc
  have hdiv0 : 0 ≤ x / 360 := div_nonneg h0 (by norm_num)
  have hdiv1 : x / 360 < 1 := by
    rw [div_lt_one (by norm_num : (0:α) < 360)]
    exact h1
  have hfl : ⌊x / 360⌋ = 0 := by
    rw [Int.floor_eq_zero_iff]
    constructor
    · exact hdiv0
    · simpa using hdiv1
  rw [if_pos hdiv0, hfl]
  simp [h0, not_lt.mpr h0]

theorem normalize360_idem {α : Type} [LinearOrderedField α] [FloorRing α]
    (x : α) : normalize360 (normalize360 x) = normalize360 x :=
  normalize360_of_mem _ (normalize360_mem x).1 (normalize360_mem x).2

/-! ## Solar terms (`src/core/solar-terms.ts`) -/

/-- The 24 solar terms definition table (`SOLAR_TERMS`), each entry a
longitude (degrees) paired with the term label, in source order starting
at 0° = 春分. -/
def SOLAR_TERMS {α : Type} [LinearOrderedField α] : List (α × String) :=
  [(0, "春分"), (15, "清明"), (30, "穀雨"), (45, "立夏"), (60, "小満"),
   (75, "芒種"), (90, "夏至"), (105, "小暑"), (120, "大暑"), (135, "立秋"),
   (150, "処暑"), (165, "白露"), (180, "秋分"), (195, "寒露"), (210, "霜降"),
   (225, "立冬"), (240, "小雪"), (255, "大雪"), (270, "冬至"), (285, "小寒"),
   (300, "大寒"), (315, "立春"), (330, "雨水"), (345, "啓蟄")]

/-- The `for` loop body of `getSolarTerm`: starting at index `i`, return the
first term whose band (with the 360°→0° seam handled by adding 360 to the
comparison values) contains the already-normalized longitude, or `none` once
the 24 indices are exhausted.  The structural `fuel` argument counts the
remaining iterations (the loop runs while `i < 24`, so `getSolarTerm` starts
it with fuel 24). -/
def solarTermFindAux {α : Type} [LinearOrderedField α] (lon : α) :
    ℕ → ℕ → Option String
  | 0, _ => none
  | fuel + 1, i =>
    if i < 24 then
      let current := (SOLAR_TERMS (α := α)).getD i (0, "")
      let next := (SOLAR_TERMS (α := α)).getD ((i + 1) % 24) (0, "")
      let nextLongitude := if next.1 < current.1 then next.1 + 360 else next.1
      let normalizedNext := if lon < current.1 then lon + 360 else lon
      if normalizedNext ≥ current.1 ∧ normalizedNext < nextLongitude then
        some current.2
      else
        solarTermFindAux lon fuel (i + 1)
    else none

/-- `getSolarTerm`: normalize the longitude into `[0, 360)`, scan the 24
bands, and fall back to the first table entry should the loop fall through. -/
def getSolarTerm {α : Type} [LinearOrderedField α] [FloorRing α] (solarLongitude : α) :
    String :=
  let normalized := normalize360 solarLongitude
  ((solarTermFindAux normalized 24 0).getD ((SOLAR_TERMS (α := α)).getD 0 (0, "")).2)

/-- The longitude column of the table is `15·i`. -/
theorem solar_terms_longitude {α : Type} [LinearOrderedField α]
    (i : ℕ) (h : i < 24) : ((SOLAR_TERMS (α := α)).getD i (0, "")).1 = 15 * i := by
  interval_cases i <;> norm_num [SOLAR_TERMS]

/-- Scanning from index `i ≤ k` finds exactly band `k` when the normalized
longitude lies in `[15k, 15(k+1))`. -/
theorem solarTermFindAux_eq {α : Type} [LinearOrderedField α]
    (lon : α) (k : ℕ) (hk : k < 24)
    (hlo : (15 * k : α) ≤ lon) (hhi : lon < 15 * (k + 1 : ℕ)) :
    ∀ fuel i, i + fuel = 24 → i ≤ k →
      solarTermFindAux lon fuel i =
        some ((SOLAR_TERMS (α := α)).getD k (0, "")).2 := by
  intro fuel
  induction fuel with
  | zero =>
    intro i hfi hik
    omega
  | succ n ih =>
    intro i hfi hik
    have hi24 : i < 24 := by omega
    rw [solarTermFindAux, if_pos hi24]
    have hcur : ((SOLAR_TERMS (α := α)).getD i (0, "")).1 = 15 * i :=
      solar_terms_longitude i hi24
    have hklon : (15 * i : α) ≤ lon := by
      have : (15 * i : α) ≤ 15 * k := by
        have : (i : α) ≤ k := by exact_mod_cast hik
        nlinarith
      linarith
    rcases eq_or_lt_of_le hik with heq | hlt
    · -- the loop stops here: this is band k
      subst heq
      rcases Nat.lt_or_ge i 23 with h23 | h23
      · have hmod : (i + 1) % 24 = i + 1 := by omega
        have hnext : ((SOLAR_TERMS (α := α)).getD ((i + 1) % 24) (0, "")).1
            = 15 * (i + 1 : ℕ) := by
          rw [hmod]; exact solar_terms_longitude (i + 1) (by omega)
        simp only [hcur, hnext]
        rw [if_pos (by
          rw [if_neg (not_lt.mpr hklon), if_neg (by push_cast; nlinarith)]
          exact ⟨hklon, by push_cast at hhi ⊢; nlinarith⟩)]
      · have hi23 : i = 23 := by omega
        subst hi23
        have hmod : (23 + 1) % 24 = 0 := by norm_num
        have hnext : ((SOLAR_TERMS (α := α)).getD ((23 + 1) % 24) (0, "")).1
            = (0 : α) := by rw [hmod]; norm_num [SOLAR_TERMS]
        simp only [hcur, hnext]
        rw [if_pos (by
          rw [if_neg (not_lt.mpr hklon), if_pos (by push_cast; nlinarith)]
          exact ⟨hklon, by push_cast at hhi ⊢; nlinarith⟩)]
    · -- i < k: this band is rejected, recurse
      have hi23 : i < 23 := by omega
      have hmod : (i + 1) % 24 = i + 1 := by omega
      have hnext : ((SOLAR_TERMS (α := α)).getD ((i + 1) % 24) (0, "")).1
          = 15 * (i + 1 : ℕ) := by
        rw [hmod]; exact solar_terms_longitude (i + 1) (by omega)
      simp only [hcur, hnext]
      rw [if_neg (by
        rw [if_neg (not_lt.mpr hklon), if_neg (by push_cast; nlinarith)]
        intro hc
        have h1 : ((i : α) + 1) ≤ (k : α) := by exact_mod_cast hlt
        have h2 := hc.2
        push_cast at h2
        nlinarith)]
      exact ih (i + 1) (by omega) (by omega)

/-- For a longitude already in `[0, 360)`, the scan returns the table entry
of index `⌊lon / 15⌋` — in particular it never falls through. -/
theorem solarTermFindAux_band {α : Type} [LinearOrderedField α] [FloorRing α]
    (lon : α) (h0 : 0 ≤ lon) (h1 : lon < 360) :
    solarTermFindAux lon 24 0 =
      some ((SOLAR_TERMS (α := α)).getD (⌊lon / 15⌋).toNat (0, "")).2 := by
  set k : ℤ := ⌊lon / 15⌋ with hk
  have hdiv0 : 0 ≤ lon / 15 := div_nonneg h0 (by norm_num)
  have hk0 : 0 ≤ k := Int.floor_nonneg.mpr hdiv0
  have hk24 : k < 24 := by
    have : lon / 15 < 24 := by
      rw [div_lt_iff₀ (by norm_num : (0:α) < 15)]
      linarith
    have := Int.floor_le_floor (α := α) (le_of_lt this)
    have h24 : ⌊(24 : α)⌋ = 24 := by norm_num
    rcases lt_or_le k 24 with h | h
    · exact h
    · exfalso
      have : (24 : α) ≤ (k : α) := by exact_mod_cast h
      have hfl : (k : α) ≤ lon / 15 := Int.floor_le _
      have : (360 : α) ≤ lon := by
        rw [div_lt_iff₀ (by norm_num : (0:α) < 15)] at *
        nlinarith
      linarith
  have hlo : (15 * (k.toNat : ℕ) : α) ≤ lon := by
    have hfl : (k : α) ≤ lon / 15 := Int.floor_le _
    have : ((k.toNat : ℤ) : α) = (k : α) := by
      congr 1
      exact Int.toNat_of_nonneg hk0
    push_cast at this ⊢
    rw [this]
    nlinarith
  have hhi : lon < 15 * ((k.toNat + 1 : ℕ) : α) := by
    have hfl : lon / 15 < (k : α) + 1 := Int.lt_floor_add_one _
    have : ((k.toNat : ℤ) : α) = (k : α) := by
      congr 1
      exact Int.toNat_of_nonneg hk0
    push_cast at this ⊢
    rw [this]
    nlinarith
  have hkn : k.toNat < 24 := by omega
  exact solarTermFindAux_eq lon k.toNat hkn hlo (by exact_mod_cast hhi) 24 0 rfl
    (Nat.zero_le _)

/-- For a longitude already in `[0, 360)`, `getSolarTerm` selects the table
entry of index `⌊lon / 15⌋`. -/
theorem getSolarTerm_band {α : Type} [LinearOrderedField α] [FloorRing α]
    (lon : α) (h0 : 0 ≤ lon) (h1 : lon < 360) :
    getSolarTerm lon =
      ((SOLAR_TERMS (α := α)).getD (⌊lon / 15⌋).toNat (0, "")).2 := by
  unfold getSolarTerm
  rw [normalize360_of_mem lon h0 h1]
  show (solarTermFindAux lon 24 0).getD ((SOLAR_TERMS (α := α)).getD 0 (0, "")).2
      = ((SOLAR_TERMS (α := α)).getD (⌊lon / 15⌋).toNat (0, "")).2
  rw [solarTermFindAux_band lon h0 h1]
  rfl

/-- Claim C7: for every longitude in `[0, 360)` the classifier returns
exactly the solar term whose half-open 15° band contains it (the table entry
of index `⌊lon / 15⌋`); in particular 0.0° yields 春分 (spring equinox) and
359.9° yields 啓蟄 (awakening of insects), the term immediately preceding
0°/360°. -/
theorem getSolarTerm_band_correct :
    (∀ lon : ℚ, 0 ≤ lon → lon < 360 →
      getSolarTerm lon = ((SOLAR_TERMS (α := ℚ)).getD (⌊lon / 15⌋).toNat (0, "")).2) ∧
    getSolarTerm (0 : ℚ) = "春分" ∧ getSolarTerm (3599 / 10 : ℚ) = "啓蟄" := by
  refine ⟨fun lon h0 h1 => getSolarTerm_band lon h0 h1, ?_, ?_⟩ <;>
    norm_num [getSolarTerm, solarTermFindAux, SOLAR_TERMS, normalize360, jsMod, jsTrunc]

/-- Witness for C7: the general band statement applied at the concrete
longitude 49.5°, which falls in the 立夏 band `[45°, 60°)`. -/
theorem getSolarTerm_band_correct_witness :
    (0 : ℚ) ≤ 99 / 2 ∧ (99 / 2 : ℚ) < 360 ∧
      getSolarTerm (99 / 2 : ℚ) =
        ((SOLAR_TERMS (α := ℚ)).getD (⌊(99 / 2 : ℚ) / 15⌋).toNat (0, "")).2 :=
  ⟨by norm_num, by norm_num,
    getSolarTerm_band_correct.1 (99 / 2) (by norm_num) (by norm_num)⟩

/-- Claim C10: `getSolarTerm` is total over every input, not only `[0, 360)`:
it normalizes the input modulo 360 with negative correction, so
`getSolarTerm x = getSolarTerm (normalize360 x)` for every real `x`, and the
final fallback return after the loop is unreachable — the scan always selects
a term from the 24-entry table. -/
theorem getSolarTerm_total :
    ∀ x : ℝ, getSolarTerm x = getSolarTerm (normalize360 x) ∧
      solarTermFindAux (normalize360 x) 24 0 ≠ none := by
  intro x
  constructor
  · unfold getSolarTerm
    rw [normalize360_idem]
  · rw [solarTermFindAux_band (normalize360 x) (normalize360_mem x).1
      (normalize360_mem x).2]
    simp

/-! ## Temporal time system (`time-system.ts`, `src/unnamed/part_011`) -/

/-- The result record of `getTemporalTime`.  The source field `end` is a
reserved word in Lean and is rendered `stop`. -/
structure TemporalTime (α : Type) where
  period : String
  koku : ℤ
  start : α
  stop : α

/-- `getAkeMutsu`: ake-mutsu (dawn) is 30 minutes before sunrise. -/
def getAkeMutsu {α : Type} [LinearOrderedField α] (sunrise : α) : α :=
  sunrise - 30 * 60 * 1000

/-- `getKureMutsu`: kure-mutsu (dusk) is 30 minutes after sunset. -/
def getKureMutsu {α : Type} [LinearOrderedField α] (sunset : α) : α :=
  sunset + 30 * 60 * 1000

/-- `getTemporalTime`: classify `now` into one of the six day koku between
ake-mutsu and kure-mutsu, or one of the six night koku.  When `now` precedes
ake-mutsu and the previous day's kure-mutsu is supplied, the night interval
is the actual `[prevKureMutsu, akeMutsu)` gap; otherwise the night length is
`24 h − dayDuration` counted from kure-mutsu. -/
def getTemporalTime {α : Type} [LinearOrderedField α] [FloorRing α]
    (akeMutsu kureMutsu now : α) (prevKureMutsu : Option α) : TemporalTime α :=
  let dayDuration := kureMutsu - akeMutsu
  let dayKokuDuration := dayDuration / 6
  if now ≥ akeMutsu ∧ now < kureMutsu then
    let elapsed := now - akeMutsu
    let koku0 := ⌊elapsed / dayKokuDuration⌋ + 1
    let koku := if koku0 > 6 then 6 else koku0
    { period := "day", koku := koku,
      start := akeMutsu + ((koku - 1 : ℤ) : α) * dayKokuDuration,
      stop := akeMutsu + (koku : α) * dayKokuDuration }
  else if now < akeMutsu ∧ prevKureMutsu.isSome then
    let prevKureMutsuTime := prevKureMutsu.getD 0
    let nightDuration := akeMutsu - prevKureMutsuTime
    let nightKokuDuration := nightDuration / 6
    let elapsed := now - prevKureMutsuTime
    let koku0 := ⌊elapsed / nightKokuDuration⌋ + 1
    let koku := if koku0 > 6 then 6 else koku0
    { period := "night", koku := koku,
      start := prevKureMutsuTime + ((koku - 1 : ℤ) : α) * nightKokuDuration,
      stop := prevKureMutsuTime + (koku : α) * nightKokuDuration }
  else
    let nightDuration := 24 * 60 * 60 * 1000 - dayDuration
    let nightKokuDuration := nightDuration / 6
    let elapsed :=
      if now ≥ kureMutsu then now - kureMutsu
      else (now + 24 * 60 * 60 * 1000 - akeMutsu) + (24 * 60 * 60 * 1000 - dayDuration)
    let koku0 := ⌊elapsed / nightKokuDuration⌋ + 1
    let koku := if koku0 > 6 then 6 else koku0
    { period := "night", koku := koku,
      start := kureMutsu + ((koku - 1 : ℤ) : α) * nightKokuDuration,
      stop := kureMutsu + (koku : α) * nightKokuDuration }

/-- In the day branch (`akeMutsu ≤ now < kureMutsu`, with a positive day
length), the unclamped floor-based koku is returned together with its exact
interval bounds. -/
theorem getTemporalTime_day_eq {α : Type} [LinearOrderedField α] [FloorRing α]
    (D K now : α) (prev : Option α) (hDK : D < K) (h1 : D ≤ now) (h2 : now < K) :
    getTemporalTime D K now prev =
      { period := "day", koku := ⌊(now - D) / ((K - D) / 6)⌋ + 1,
        start := D + ((⌊(now - D) / ((K - D) / 6)⌋ : ℤ) : α) * ((K - D) / 6),
        stop := D + ((⌊(now - D) / ((K - D) / 6)⌋ + 1 : ℤ) : α) * ((K - D) / 6) } := by
  have hd : (0 : α) < (K - D) / 6 := by
    apply div_pos <;> [linarith; norm_num]
  have he0 : (0 : α) ≤ now - D := by linarith
  have hlt : (now - D) / ((K - D) / 6) < 6 := by
    rw [div_lt_iff₀ hd]
    linarith
  have hq0 : 0 ≤ ⌊(now - D) / ((K - D) / 6)⌋ :=
    Int.floor_nonneg.mpr (div_nonneg he0 hd.le)
  have hq5 : ⌊(now - D) / ((K - D) / 6)⌋ < 6 := by
    have := Int.floor_le_floor (α := α) hlt.le
    have h6 : ⌊(6 : α)⌋ = 6 := by norm_num
    rcases lt_or_le ⌊(now - D) / ((K - D) / 6)⌋ 6 with h | h
    · exact h
    · exfalso
      have hle : ((6 : ℤ) : α) ≤ (⌊(now - D) / ((K - D) / 6)⌋ : α) := by
        exact_mod_cast h
      have := Int.floor_le (α := α) ((now - D) / ((K - D) / 6))
      linarith
  simp only [getTemporalTime]
  rw [if_pos ⟨h1, h2⟩]
  rw [if_neg (by omega : ¬ (⌊(now - D) / ((K - D) / 6)⌋ + 1 > 6))]
  push_cast
  ring_nf

/-- Claim C5: within the day period `[D, K)` with `D < K`, `getTemporalTime`
reports `period = "day"` and the unique koku `i ∈ 1..6` whose interval
`[D + (i−1)·(K−D)/6, D + i·(K−D)/6)` contains `now`, with `start`/`stop`
equal to that interval's bounds; the six intervals are contiguous, start at
`D`, end at `K` (so the durations sum to `K − D`), and at `now = D` the
result is koku 1 starting at `D`. -/
theorem getTemporalTime_day_correct (D K now : ℚ) (prev : Option ℚ)
    (hDK : D < K) (h1 : D ≤ now) (h2 : now < K) :
    (getTemporalTime D K now prev).period = "day" ∧
    1 ≤ (getTemporalTime D K now prev).koku ∧
    (getTemporalTime D K now prev).koku ≤ 6 ∧
    (getTemporalTime D K now prev).start =
      D + (((getTemporalTime D K now prev).koku - 1 : ℤ) : ℚ) * ((K - D) / 6) ∧
    (getTemporalTime D K now prev).stop =
      D + (((getTemporalTime D K now prev).koku : ℤ) : ℚ) * ((K - D) / 6) ∧
    (getTemporalTime D K now prev).start ≤ now ∧
    now < (getTemporalTime D K now prev).stop ∧
    (∀ i : ℤ, 1 ≤ i → i ≤ 6 →
      D + ((i - 1 : ℤ) : ℚ) * ((K - D) / 6) ≤ now →
      now < D + ((i : ℤ) : ℚ) * ((K - D) / 6) →
      i = (getTemporalTime D K now prev).koku) ∧
    D + ((0 : ℤ) : ℚ) * ((K - D) / 6) = D ∧
    D + ((6 : ℤ) : ℚ) * ((K - D) / 6) = K ∧
    (now = D → (getTemporalTime D K now prev).koku = 1 ∧
      (getTemporalTime D K now prev).start = D) := by
  have hd : (0 : ℚ) < (K - D) / 6 := by
    apply div_pos <;> [linarith; norm_num]
  have he0 : (0 : ℚ) ≤ now - D := by linarith
  rw [getTemporalTime_day_eq D K now prev hDK h1 h2]
  set q : ℤ := ⌊(now - D) / ((K - D) / 6)⌋ with hq
  have hq0 : 0 ≤ q := by
    rw [hq]
    exact Int.floor_nonneg.mpr (div_nonneg he0 hd.le)
  have hlt6 : (now - D) / ((K - D) / 6) < ((6 : ℤ) : ℚ) := by
    push_cast
    rw [div_lt_iff₀ hd]
    linarith
  have hq5 : q < 6 := by
    rw [hq]
    exact Int.floor_lt.mpr hlt6
  have hfl1 : (q : ℚ) ≤ (now - D) / ((K - D) / 6) := by
    rw [hq]; exact Int.floor_le _
  have hfl2 : (now - D) / ((K - D) / 6) < (q : ℚ) + 1 := by
    rw [hq]; exact Int.lt_floor_add_one _
  have hstart : (q : ℚ) * ((K - D) / 6) ≤ now - D := by
    calc (q : ℚ) * ((K - D) / 6) ≤ ((now - D) / ((K - D) / 6)) * ((K - D) / 6) :=
          mul_le_mul_of_nonneg_right hfl1 hd.le
      _ = now - D := div_mul_cancel₀ _ (ne_of_gt hd)
  have hstop : now - D < ((q : ℚ) + 1) * ((K - D) / 6) := by
    calc now - D = ((now - D) / ((K - D) / 6)) * ((K - D) / 6) :=
          (div_mul_cancel₀ _ (ne_of_gt hd)).symm
      _ < ((q : ℚ) + 1) * ((K - D) / 6) := mul_lt_mul_of_pos_right hfl2 hd
  refine ⟨rfl, by dsimp only; omega, by dsimp only; omega, ?_, ?_, ?_, ?_, ?_, ?_, ?_, ?_⟩
  · dsimp only
    push_cast
    ring
  · dsimp only
  · dsimp only
    linarith
  · dsimp only
    push_cast
    linarith
  · intro i hi1 hi6 hil hir
    dsimp only
    have hfloor : q = i - 1 := by
      rw [hq]
      apply Int.floor_eq_iff.mpr
      constructor
      · push_cast
        rw [le_div_iff₀ hd]
        push_cast at hil
        linarith
      · push_cast
        rw [div_lt_iff₀ hd]
        linarith
    omega
  · push_cast
    ring
  · push_cast
    ring
  · intro hnow
    have hq00 : q = 0 := by
      rw [hq, hnow]
      simp
    constructor
    · dsimp only
      omega
    · dsimp only
      rw [hq00]
      push_cast
      ring

/-- In the pre-dawn night branch (`now < akeMutsu`, a previous kure-mutsu
supplied), the koku is computed over the actual `[P, D)` gap. -/
theorem getTemporalTime_night_prev_eq {α : Type} [LinearOrderedField α] [FloorRing α]
    (D K now P : α) (hPD : P < D) (h1 : P ≤ now) (h2 : now < D) :
    getTemporalTime D K now (some P) =
      { period := "night", koku := ⌊(now - P) / ((D - P) / 6)⌋ + 1,
        start := P + ((⌊(now - P) / ((D - P) / 6)⌋ : ℤ) : α) * ((D - P) / 6),
        stop := P + ((⌊(now - P) / ((D - P) / 6)⌋ + 1 : ℤ) : α) * ((D - P) / 6) } := by
  have hd : (0 : α) < (D - P) / 6 := by
    apply div_pos <;> [linarith; norm_num]
  have he0 : (0 : α) ≤ now - P := by linarith
  have hlt : (now - P) / ((D - P) / 6) < ((6 : ℤ) : α) := by
    push_cast
    rw [div_lt_iff₀ hd]
    linarith
  have hq0 : 0 ≤ ⌊(now - P) / ((D - P) / 6)⌋ :=
    Int.floor_nonneg.mpr (div_nonneg he0 hd.le)
  have hq5 : ⌊(now - P) / ((D - P) / 6)⌋ < 6 := Int.floor_lt.mpr hlt
  simp only [getTemporalTime]
  rw [if_neg (by intro h; exact absurd h.1 (not_le.mpr h2))]
  rw [if_pos ⟨h2, rfl⟩]
  simp only [Option.getD_some]
  rw [if_neg (by omega : ¬ (⌊(now - P) / ((D - P) / 6)⌋ + 1 > 6))]
  push_cast
  ring_nf

/-- Claim C6: when `now` lies in the pre-dawn gap `[P, D)` and the previous
day's kure-mutsu `P` is supplied, `getTemporalTime` reports `period =
"night"` and partitions the actual `[P, D)` gap into six equal intervals —
not a fixed 24-hour cycle — returning the koku whose interval
`[P + (i−1)·(D−P)/6, P + i·(D−P)/6)` contains `now`, with the six intervals
starting at `P` and ending at `D`. -/
theorem getTemporalTime_night_prev_correct (D K now P : ℚ)
    (h1 : P ≤ now) (h2 : now < D) :
    (getTemporalTime D K now (some P)).period = "night" ∧
    1 ≤ (getTemporalTime D K now (some P)).koku ∧
    (getTemporalTime D K now (some P)).koku ≤ 6 ∧
    (getTemporalTime D K now (some P)).start =
      P + (((getTemporalTime D K now (some P)).koku - 1 : ℤ) : ℚ) * ((D - P) / 6) ∧
    (getTemporalTime D K now (some P)).stop =
      P + (((getTemporalTime D K now (some P)).koku : ℤ) : ℚ) * ((D - P) / 6) ∧
    (getTemporalTime D K now (some P)).start ≤ now ∧
    now < (getTemporalTime D K now (some P)).stop ∧
    (∀ i : ℤ, 1 ≤ i → i ≤ 6 →
      P + ((i - 1 : ℤ) : ℚ) * ((D - P) / 6) ≤ now →
      now < P + ((i : ℤ) : ℚ) * ((D - P) / 6) →
      i = (getTemporalTime D K now (some P)).koku) ∧
    P + ((0 : ℤ) : ℚ) * ((D - P) / 6) = P ∧
    P + ((6 : ℤ) : ℚ) * ((D - P) / 6) = D := by
  have hPD : P < D := lt_of_le_of_lt h1 h2
  have hd : (0 : ℚ) < (D - P) / 6 := by
    apply div_pos <;> [linarith; norm_num]
  have he0 : (0 : ℚ) ≤ now - P := by linarith
  rw [getTemporalTime_night_prev_eq D K now P hPD h1 h2]
  set q : ℤ := ⌊(now - P) / ((D - P) / 6)⌋ with hq
  have hq0 : 0 ≤ q := by
    rw [hq]
    exact Int.floor_nonneg.mpr (div_nonneg he0 hd.le)
  have hlt6 : (now - P) / ((D - P) / 6) < ((6 : ℤ) : ℚ) := by
    push_cast
    rw [div_lt_iff₀ hd]
    linarith
  have hq5 : q < 6 := by
    rw [hq]
    exact Int.floor_lt.mpr hlt6
  have hfl1 : (q : ℚ) ≤ (now - P) / ((D - P) / 6) := by
    rw [hq]; exact Int.floor_le _
  have hfl2 : (now - P) / ((D - P) / 6) < (q : ℚ) + 1 := by
    rw [hq]; exact Int.lt_floor_add_one _
  have hstart : (q : ℚ) * ((D - P) / 6) ≤ now - P := by
    calc (q : ℚ) * ((D - P) / 6) ≤ ((now - P) / ((D - P) / 6)) * ((D - P) / 6) :=
          mul_le_mul_of_nonneg_right hfl1 hd.le
      _ = now - P := div_mul_cancel₀ _ (ne_of_gt hd)
  have hstop : now - P < ((q : ℚ) + 1) * ((D - P) / 6) := by
    calc now - P = ((now - P) / ((D - P) / 6)) * ((D - P) / 6) :=
          (div_mul_cancel₀ _ (ne_of_gt hd)).symm
      _ < ((q : ℚ) + 1) * ((D - P) / 6) := mul_lt_mul_of_pos_right hfl2 hd
  refine ⟨rfl, by dsimp only; omega, by dsimp only; omega, ?_, ?_, ?_, ?_, ?_, ?_, ?_⟩
  · dsimp only
    push_cast
    ring
  · dsimp only
  · dsimp only
    linarith
  · dsimp only
    push_cast
    linarith
  · intro i hi1 hi6 hil hir
    dsimp only
    have hfloor : q = i - 1 := by
      rw [hq]
      apply Int.floor_eq_iff.mpr
      constructor
      · push_cast
        rw [le_div_iff₀ hd]
        push_cast at hil
        linarith
      · push_cast
        rw [div_lt_iff₀ hd]
        linarith
    omega
  · push_cast
    ring
  · push_cast
    ring

/-- Witness for C6 at `P = 0`, `D = 36000000` (a 10-hour night gap), day end
`K = 79200000`, `now = 18000000` (the pre-dawn midpoint, koku 4). -/
theorem getTemporalTime_night_prev_correct_witness :
    (0 : ℚ) ≤ 18000000 ∧ (18000000 : ℚ) < 36000000 ∧
    ((getTemporalTime (36000000 : ℚ) 79200000 18000000 (some 0)).period = "night" ∧
     1 ≤ (getTemporalTime (36000000 : ℚ) 79200000 18000000 (some 0)).koku ∧
     (getTemporalTime (36000000 : ℚ) 79200000 18000000 (some 0)).koku ≤ 6) := by
  refine ⟨by norm_num, by norm_num, ?_⟩
  have h := getTemporalTime_night_prev_correct 36000000 79200000 18000000 0
    (by norm_num) (by norm_num)
  exact ⟨h.1, h.2.1, h.2.2.1⟩

/-- Witness for C5 at `D = 0`, `K = 72000000` (a 20-hour day period in
milliseconds), `now = D`. -/
theorem getTemporalTime_day_correct_witness :
    (0 : ℚ) < 72000000 ∧ (0 : ℚ) ≤ 0 ∧ (0 : ℚ) < 72000000 ∧
    ((getTemporalTime (0 : ℚ) 72000000 0 none).period = "day" ∧
     (getTemporalTime (0 : ℚ) 72000000 0 none).koku = 1 ∧
     (getTemporalTime (0 : ℚ) 72000000 0 none).start = 0) := by
  refine ⟨by norm_num, le_refl 0, by norm_num, ?_⟩
  have h := getTemporalTime_day_correct 0 72000000 0 none (by norm_num)
    (le_refl 0) (by norm_num)
  obtain ⟨hp, -, -, -, -, -, -, -, -, -, hD⟩ := h
  obtain ⟨hk, hs⟩ := hD rfl
  exact ⟨hp, hk, hs⟩

/-! ## Moon age (`lunar-calendar.ts`, `src/unnamed/part_012`) -/

/-- The error cases of `getMoonAge`.  The source carries four distinct
Japanese message strings; they are embedded as distinct constructors
carrying the values interpolated into the message text. -/
inductive MoonAgeError (α : Type) where
  | noData : MoonAgeError α
  | beforeRange (query firstNewMoon : α) : MoonAgeError α
  | afterRange (query lastNewMoon : α) : MoonAgeError α
  | notFound : MoonAgeError α

/-- The result of `getMoonAge`: a moon age in days plus an optional error. -/
structure MoonAgeResult (α : Type) where
  moonAge : α
  error : Option (MoonAgeError α)

/-- The synodic-month constant of `getMoonAge`, 29.53059 days. -/
def synodicMonth {α : Type} [LinearOrderedField α] : α := 29.53059

/-- Front-to-back scan stopping at the first entry `≤ target`. -/
def findFromEnd {α : Type} [LinearOrder α] (target : α) : List α → Option α
  | [] => none
  | d :: rest => if d ≤ target then some d else findFromEnd target rest

/-- The backward scan of `getMoonAge`: iterate from the end of the array
and stop at the first entry `≤ target`. -/
def findNearestNewMoon {α : Type} [LinearOrder α] (table : List α) (target : α) :
    Option α :=
  findFromEnd target table.reverse

/-- `getMoonAge`: guard the tabulated range (first new moon to last new moon
plus one synodic month), find the nearest past new moon, and return the
elapsed days modulo the synodic month. -/
def getMoonAge {α : Type} [LinearOrderedField α] [FloorRing α]
    (newMoonDates : List α) (date : α) : MoonAgeResult α :=
  if newMoonDates.isEmpty then
    { moonAge := 0, error := some .noData }
  else
    let firstNewMoon := newMoonDates.headD 0
    let lastNewMoon := newMoonDates.getLastD 0
    if date < firstNewMoon then
      { moonAge := 0, error := some (.beforeRange date firstNewMoon) }
    else
      let maxDate := lastNewMoon + synodicMonth * (24 * 60 * 60 * 1000)
      if date > maxDate then
        { moonAge := 0, error := some (.afterRange date lastNewMoon) }
      else
        match findNearestNewMoon newMoonDates date with
        | none => { moonAge := 0, error := some .notFound }
        | some nearestNewMoon =>
          let diffDays := (date - nearestNewMoon) / (1000 * 60 * 60 * 24)
          let moonAge := jsMod diffDays synodicMonth
          { moonAge := if moonAge < 0 then moonAge + synodicMonth else moonAge,
            error := none }

/-- A found entry satisfies the scan's bound. -/
theorem findFromEnd_le {α : Type} [LinearOrder α] (target : α) (l : List α) (a : α)
    (h : findFromEnd target l = some a) : a ≤ target := by
  induction l with
  | nil => cases h
  | cons x xs ih =>
    by_cases hx : x ≤ target
    · rw [findFromEnd, if_pos hx] at h
      cases h
      exact hx
    · rw [findFromEnd, if_neg hx] at h
      exact ih h

/-- The scan finds an entry whenever some member is `≤ target`. -/
theorem findFromEnd_isSome {α : Type} [LinearOrder α] (target : α) (l : List α)
    (x : α) (hmem : x ∈ l) (hx : x ≤ target) :
    ∃ a, findFromEnd target l = some a := by
  induction l with
  | nil => cases hmem
  | cons y ys ih =>
    by_cases hy : y ≤ target
    · exact ⟨y, by rw [findFromEnd, if_pos hy]⟩
    · rcases List.mem_cons.mp hmem with heq | hmem'
      · exact absurd (heq ▸ hx) hy
      · obtain ⟨a, ha⟩ := ih hmem'
        exact ⟨a, by rw [findFromEnd, if_neg hy]; exact ha⟩

/-- On a pairwise-descending list containing `t`, the scan returns `t`. -/
theorem findFromEnd_desc_self {α : Type} [LinearOrder α] (t : α) (l : List α)
    (hdesc : l.Pairwise (fun a b => b ≤ a)) (hmem : t ∈ l) :
    findFromEnd t l = some t := by
  induction l with
  | nil => cases hmem
  | cons x xs ih =>
    have hx_tail := (List.pairwise_cons.mp hdesc).1
    have hdesc_tail := (List.pairwise_cons.mp hdesc).2
    by_cases hx : x ≤ t
    · have hxt : x = t := by
        rcases List.mem_cons.mp hmem with h | h
        · exact h.symm
        · exact le_antisymm hx (hx_tail t h)
      rw [findFromEnd, if_pos hx, hxt]
    · have hmem' : t ∈ xs := by
        rcases List.mem_cons.mp hmem with h | h
        · exact absurd (le_of_eq h.symm) hx
        · exact h
      rw [findFromEnd, if_neg hx]
      exact ih hdesc_tail hmem'

/-- On a nonempty table whose first entry is `≤ target`, the backward scan
finds an entry, and any entry found satisfies `≤ target`. -/
theorem findNearestNewMoon_isSome {α : Type} [LinearOrder α] [Zero α]
    (table : List α) (target : α) (hne : table ≠ [])
    (hfirst : table.headD 0 ≤ target) :
    ∃ a, findNearestNewMoon table target = some a ∧ a ≤ target := by
  obtain ⟨x, xs, rfl⟩ := List.exists_cons_of_ne_nil hne
  have hx : x ∈ (x :: xs).reverse := by
    rw [List.mem_reverse]
    exact List.mem_cons_self x xs
  obtain ⟨a, ha⟩ := findFromEnd_isSome target ((x :: xs).reverse) x hx
    (by simpa using hfirst)
  exact ⟨a, ha, findFromEnd_le target _ a ha⟩

/-- On an ascending table, the backward scan at a tabulated instant returns
that instant itself. -/
theorem findNearestNewMoon_self {α : Type} [LinearOrder α]
    (table : List α) (t : α) (hsort : table.Sorted (· ≤ ·)) (hmem : t ∈ table) :
    findNearestNewMoon table t = some t := by
  unfold findNearestNewMoon
  apply findFromEnd_desc_self
  · rw [List.pairwise_reverse]
    exact hsort
  · rw [List.mem_reverse]
    exact hmem

/-- Claim C9: on a nonempty new-moon table, `getMoonAge` reports an error
exactly when the query instant precedes the first tabulated new moon or
exceeds the last tabulated new moon plus one synodic month (29.53059 days),
and the two out-of-range reasons are distinct values distinguishing the
before-range case from the after-range case. -/
theorem getMoonAge_before_eq {α : Type} [LinearOrderedField α] [FloorRing α]
    (table : List α) (t : α) (hne : table ≠ []) (hb : t < table.headD 0) :
    getMoonAge table t =
      { moonAge := 0, error := some (.beforeRange t (table.headD 0)) } := by
  unfold getMoonAge
  rw [if_neg (by simp [List.isEmpty_iff, hne])]
  rw [if_pos hb]

theorem getMoonAge_after_eq {α : Type} [LinearOrderedField α] [FloorRing α]
    (table : List α) (t : α) (hne : table ≠ []) (hb : table.headD 0 ≤ t)
    (ha : table.getLastD 0 + synodicMonth * (24 * 60 * 60 * 1000) < t) :
    getMoonAge table t =
      { moonAge := 0, error := some (.afterRange t (table.getLastD 0)) } := by
  unfold getMoonAge
  rw [if_neg (by simp [List.isEmpty_iff, hne])]
  rw [if_neg (not_lt.mpr hb)]
  rw [if_pos ha]

theorem getMoonAge_ok_eq {α : Type} [LinearOrderedField α] [FloorRing α]
    (table : List α) (t : α) (hne : table ≠ []) (hb : table.headD 0 ≤ t)
    (ha : t ≤ table.getLastD 0 + synodicMonth * (24 * 60 * 60 * 1000)) :
    ∃ a, findNearestNewMoon table t = some a ∧ a ≤ t ∧
      getMoonAge table t =
        { moonAge :=
            if jsMod ((t - a) / (1000 * 60 * 60 * 24)) synodicMonth < 0 then
              jsMod ((t - a) / (1000 * 60 * 60 * 24)) synodicMonth + synodicMonth
            else jsMod ((t - a) / (1000 * 60 * 60 * 24)) synodicMonth,
          error := none } := by
  obtain ⟨a, hfind, hat⟩ := findNearestNewMoon_isSome table t hne hb
  refine ⟨a, hfind, hat, ?_⟩
  unfold getMoonAge
  rw [if_neg (by simp [List.isEmpty_iff, hne])]
  rw [if_neg (not_lt.mpr hb)]
  rw [if_neg (not_lt.mpr ha)]
  rw [hfind]

/-- Claim C9: on a nonempty new-moon table, `getMoonAge` reports an error
exactly when the query instant precedes the first tabulated new moon or
exceeds the last tabulated new moon plus one synodic month (29.53059 days),
and the two out-of-range reasons are distinct values distinguishing the
before-range case from the after-range case. -/
theorem getMoonAge_range_error (table : List ℚ) (t : ℚ) (hne : table ≠ []) :
    ((getMoonAge table t).error = none ↔
      table.headD 0 ≤ t ∧
        t ≤ table.getLastD 0 + synodicMonth * (24 * 60 * 60 * 1000)) ∧
    (t < table.headD 0 →
      (getMoonAge table t).error = some (.beforeRange t (table.headD 0))) ∧
    (table.headD 0 ≤ t →
      table.getLastD 0 + synodicMonth * (24 * 60 * 60 * 1000) < t →
      (getMoonAge table t).error = some (.afterRange t (table.getLastD 0))) ∧
    MoonAgeError.beforeRange t (table.headD 0) ≠
      MoonAgeError.afterRange t (table.getLastD 0) := by
  refine ⟨?_, ?_, ?_, fun h => by cases h⟩
  · constructor
    · intro herr
      by_contra hcon
      push_neg at hcon
      rcases lt_or_le t (table.headD 0) with hb | hb
      · rw [getMoonAge_before_eq table t hne hb] at herr
        cases herr
      · have ha := hcon hb
        rw [getMoonAge_after_eq table t hne hb ha] at herr
        cases herr
    · rintro ⟨hb, ha⟩
      obtain ⟨a, -, -, heq⟩ := getMoonAge_ok_eq table t hne hb ha
      rw [heq]
  · intro hb
    rw [getMoonAge_before_eq table t hne hb]
  · intro hb ha
    rw [getMoonAge_after_eq table t hne hb ha]

/-- Witness for C9: on the two-entry table `[0, 2552256000]` the instant
`−5` (before the first tabulated new moon) is reported with the
before-range reason. -/
theorem getMoonAge_range_error_witness :
    ([(0 : ℚ), 2552256000] ≠ []) ∧
    (getMoonAge [(0 : ℚ), 2552256000] (-5)).error =
      some (.beforeRange (-5) 0) := by
  constructor
  · simp
  · have h := (getMoonAge_range_error [(0 : ℚ), 2552256000] (-5)
      (by simp)).2.1 (by norm_num)
    simpa using h

/-- Claim C4 (amended): within the range the code accepts (not before the
first tabulated new moon, not more than one code synodic month of 29.53059
days after the last), `getMoonAge` on a sorted table returns no error and a
moon age in `[0, 29.53059)` — the bound is the code's synodic constant
29.53059, not the spec's 29.530588 — and at an instant exactly equal to a
tabulated new moon the moon age is 0. -/
theorem getMoonAge_in_range (table : List ℚ) (t : ℚ)
    (hne : table ≠ []) (hsort : table.Sorted (· ≤ ·))
    (h1 : table.headD 0 ≤ t)
    (h2 : t ≤ table.getLastD 0 + synodicMonth * (24 * 60 * 60 * 1000)) :
    (getMoonAge table t).error = none ∧
    0 ≤ (getMoonAge table t).moonAge ∧
    (getMoonAge table t).moonAge < synodicMonth ∧
    (t ∈ table → (getMoonAge table t).moonAge = 0) := by
  have hsyn : (0 : ℚ) < synodicMonth := by norm_num [synodicMonth]
  obtain ⟨a, hfind, hat, heq⟩ := getMoonAge_ok_eq table t hne h1 h2
  rw [heq]
  have hdd : (0 : ℚ) ≤ (t - a) / (1000 * 60 * 60 * 24) := by
    apply div_nonneg (by linarith) (by norm_num)
  have hx0 : 0 ≤ jsMod ((t - a) / (1000 * 60 * 60 * 24)) synodicMonth :=
    jsMod_nonneg_of_nonneg _ _ hdd hsyn
  have hx1 : jsMod ((t - a) / (1000 * 60 * 60 * 24)) synodicMonth < synodicMonth :=
    jsMod_lt_of_nonneg _ _ hdd hsyn
  refine ⟨rfl, ?_, ?_, ?_⟩
  · dsimp only
    rw [if_neg (not_lt.mpr hx0)]
    exact hx0
  · dsimp only
    rw [if_neg (not_lt.mpr hx0)]
    exact hx1
  · intro hmem
    have hself := findNearestNewMoon_self table t hsort hmem
    rw [hfind] at hself
    have hta : a = t := by
      injection hself
    dsimp only
    rw [if_neg (not_lt.mpr hx0), hta]
    norm_num [jsMod, jsTrunc]

/-- Witness for the amended C4: on the table `[0, 2552256000]`, querying the
tabulated new-moon instant `0` yields no error and moon age 0. -/
theorem getMoonAge_in_range_witness :
    ([(0 : ℚ), 2552256000] ≠ []) ∧
    ((0 : ℚ) ∈ [(0 : ℚ), 2552256000]) ∧
    (getMoonAge [(0 : ℚ), 2552256000] 0).error = none ∧
    (getMoonAge [(0 : ℚ), 2552256000] 0).moonAge = 0 := by
  have h := getMoonAge_in_range [(0 : ℚ), 2552256000] 0 (by simp)
    (by norm_num [List.sorted_cons])
    (by norm_num)
    (by norm_num [synodicMonth])
  exact ⟨by simp, by simp, h.1, h.2.2.2 (by simp)⟩

/-- Counterexample to claim C4 as stated: on the (ascending, gap 29.54 days)
table `[0, 2552256000]`, the instant `12757214232/5` ms = 29.5305885 days is
inside the tabulated coverage (after the first new moon, indeed before the
last one), `getMoonAge` reports no error, yet the returned moon age
29.5305885 does **not** lie in the claimed interval `[0, 29.530588)`. -/
theorem getMoonAge_bound_cex :
    ([(0 : ℚ), 2552256000] ≠ []) ∧
    List.Sorted (· ≤ ·) [(0 : ℚ), 2552256000] ∧
    [(0 : ℚ), 2552256000].headD 0 ≤ 12757214232 / 5 ∧
    (12757214232 / 5 : ℚ) ≤
      [(0 : ℚ), 2552256000].getLastD 0 + (29530588 / 1000000) * (24 * 60 * 60 * 1000) ∧
    (getMoonAge [(0 : ℚ), 2552256000] (12757214232 / 5)).error = none ∧
    ¬ ((getMoonAge [(0 : ℚ), 2552256000] (12757214232 / 5)).moonAge
        < 29530588 / 1000000) := by
  refine ⟨by simp, by norm_num [List.sorted_cons], by norm_num, by norm_num, ?_, ?_⟩
  · norm_num [getMoonAge, findNearestNewMoon, findFromEnd, jsMod, jsTrunc, synodicMonth]
  · norm_num [getMoonAge, findNearestNewMoon, findFromEnd, jsMod, jsTrunc, synodicMonth]

/-! ## Solar longitude (`astronomy/solarLongitude.ts`, `src/unnamed/part_009`) -/

/-- Days since the J2000.0 epoch (2000-01-01T12:00:00Z, epoch millisecond
946728000000) for an instant given in epoch milliseconds. -/
noncomputable def daysSinceJ2000 (t : ℝ) : ℝ :=
  (t - 946728000000) / (1000 * 60 * 60 * 24)

/-- Julian centuries `T` since J2000.0. -/
noncomputable def julianCenturies (t : ℝ) : ℝ :=
  daysSinceJ2000 t / 36525

/-- Mean longitude `L = 280.4665 + 36000.7698·T` (degrees). -/
noncomputable def meanLongitude (t : ℝ) : ℝ :=
  280.4665 + 36000.7698 * julianCenturies t

/-- Mean anomaly `M = 357.5291 + 35999.0503·T` (degrees). -/
noncomputable def meanAnomaly (t : ℝ) : ℝ :=
  357.5291 + 35999.0503 * julianCenturies t

/-- Equation of center `C` (degrees), with `M` in radians for the trig
calls. -/
noncomputable def equationOfCenter (t : ℝ) : ℝ :=
  let T := julianCenturies t
  let M_rad := meanAnomaly t * Real.pi / 180
  (1.9146 - 0.004817 * T - 0.000014 * T * T) * Real.sin M_rad
    + (0.019993 - 0.000101 * T) * Real.sin (2 * M_rad)
    + 0.000289 * Real.sin (3 * M_rad)

/-- `getSolarLongitude`: the true longitude `L + C` normalized into
`[0, 360)` by modulo with negative correction. -/
noncomputable def getSolarLongitude (t : ℝ) : ℝ :=
  normalize360 (meanLongitude t + equationOfCenter t)

/-- Claim C8: for every instant, `getSolarLongitude` is the mean longitude
`L = 280.4665 + 36000.7698·T` plus the equation of center computed from the
mean anomaly `M = 357.5291 + 35999.0503·T` (with `T` = days since J2000.0 /
36525), normalized by modulo 360 with negative correction, and the returned
value always satisfies `0 ≤ getSolarLongitude t < 360`. -/
theorem getSolarLongitude_normalized :
    ∀ t : ℝ,
      getSolarLongitude t = normalize360 (meanLongitude t + equationOfCenter t) ∧
      0 ≤ getSolarLongitude t ∧ getSolarLongitude t < 360 :=
  fun _ => ⟨rfl, (normalize360_mem _).1, (normalize360_mem _).2⟩

/-! ## Civil calendar and the Asia/Tokyo zone model

The source delegates calendar arithmetic to the JavaScript `Date` object and
`Intl` (the spec's external `TimeZoneResolver`).  It is modelled here for
the deployment the repository targets — browser and location both in
`Asia/Tokyo`, a fixed UTC+9 offset with no DST — by proleptic-Gregorian day
arithmetic (the standard era/day-of-era decomposition). -/

/-- A civil calendar date (year, month 1–12, day 1–31). -/
structure CivilDate where
  year : ℤ
  month : ℤ
  day : ℤ
deriving DecidableEq

/-- Day number (days since 1970-01-01) of a proleptic Gregorian date. -/
def daysFromCivil (y m d : ℤ) : ℤ :=
  let y' := if m ≤ 2 then y - 1 else y
  let era := Int.fdiv y' 400
  let yoe := y' - era * 400
  let doy := Int.fdiv (153 * (if 2 < m then m - 3 else m + 9) + 2) 5 + d - 1
  let doe := yoe * 365 + Int.fdiv yoe 4 - Int.fdiv yoe 100 + doy
  era * 146097 + doe - 719468

/-- Civil date of a day number (inverse of `daysFromCivil`). -/
def civilFromDays (z : ℤ) : CivilDate :=
  let z' := z + 719468
  let era := Int.fdiv z' 146097
  let doe := z' - era * 146097
  let yoe := Int.fdiv
    (doe - Int.fdiv doe 1460 + Int.fdiv doe 36524 - Int.fdiv doe 146096) 365
  let y := yoe + era * 400
  let doy := doe - (365 * yoe + Int.fdiv yoe 4 - Int.fdiv yoe 100)
  let mp := Int.fdiv (5 * doy + 2) 153
  let d := doy - Int.fdiv (153 * mp + 2) 5 + 1
  let m := mp + (if mp < 10 then 3 else -9)
  ⟨y + (if m ≤ 2 then 1 else 0), m, d⟩

/-- The civil calendar date, in the fixed UTC+9 zone, of an instant given in
epoch milliseconds (models `Date#getFullYear/getMonth/getDate` under
`Asia/Tokyo`). -/
def civilFromMs (t : ℚ) : CivilDate :=
  civilFromDays ⌊(t + 9 * 3600000) / 86400000⌋

/-- The instant of 12:00 local time on a civil day in the fixed UTC+9 zone
(models `getNoonInTimeZone (y, m, d, "Asia/Tokyo")` and the local-noon
constructor `new Date(y, m, d, 12, 0, 0)` of `getSunriseSunset`). -/
def noonTokyoMs (c : CivilDate) : ℚ :=
  ((daysFromCivil c.year c.month c.day) * 86400000 + 3 * 3600000 : ℤ)

/-! ## Sunrise and sunset (`astronomy/sunriseSunset.ts`) -/

/-- A geographic location (latitude and longitude in degrees; the timezone
field is fixed to `Asia/Tokyo` in this model). -/
structure Location where
  lat : ℝ
  lon : ℝ

/-- Obliquity of the ecliptic (degrees). -/
noncomputable def obliquity (t : ℝ) : ℝ :=
  23.4393 - 0.0000004 * daysSinceJ2000 t

/-- Solar declination (degrees) computed from the solar longitude, as in
`getSunriseSunset`. -/
noncomputable def declination (t : ℝ) : ℝ :=
  Real.arcsin (Real.sin (getSolarLongitude t * Real.pi / 180) *
    Real.sin (obliquity t * Real.pi / 180)) * (180 / Real.pi)

/-- The hour-angle cosine `cos H = −tan φ · tan δ` of `getSunriseSunset`,
with `δ` evaluated at the civil noon of the date. -/
noncomputable def sunriseCosH (c : CivilDate) (loc : Location) : ℝ :=
  - Real.tan (loc.lat * Real.pi / 180) *
    Real.tan (declination ((noonTokyoMs c : ℚ) : ℝ) * Real.pi / 180)

/-- `getSunriseSunset` for the civil day `c`: the (sunrise, sunset) pair of
instants, offset `∓hourAngle/15` hours around the civil noon when
`|cos H| ≤ 1`, and noon `∓6 h` in the polar fallback. -/
noncomputable def getSunriseSunset (c : CivilDate) (loc : Location) : ℝ × ℝ :=
  let noon : ℝ := ((noonTokyoMs c : ℚ) : ℝ)
  if |sunriseCosH c loc| ≤ 1 then
    let hourAngle := Real.arccos (sunriseCosH c loc) * (180 / Real.pi)
    (noon + (-hourAngle / 15) * (60 * 60 * 1000),
     noon + (hourAngle / 15) * (60 * 60 * 1000))
  else
    (noon - 6 * 60 * 60 * 1000, noon + 6 * 60 * 60 * 1000)

/-- Both branches of `getSunriseSunset` are symmetric about the civil noon:
sunrise and sunset sum to twice the civil noon. -/
theorem getSunriseSunset_sum (c : CivilDate) (loc : Location) :
    (getSunriseSunset c loc).1 + (getSunriseSunset c loc).2 =
      2 * ((noonTokyoMs c : ℚ) : ℝ) := by
  unfold getSunriseSunset
  dsimp only
  split_ifs <;> dsimp only <;> ring

/-! ## Solar noon (`astronomy/solarNoon.ts`, `src/unnamed/part_007`) -/

/-- `getDayOfYear`: rounded civil-day difference between the date's clock
noon and January 1 noon, plus one. -/
def getDayOfYear (c : CivilDate) : ℤ :=
  jsRound ((noonTokyoMs c - noonTokyoMs ⟨c.year, 1, 1⟩) / (1000 * 60 * 60 * 24)) + 1

/-- `getEquationOfTimeMinutes` (NOAA approximation), minutes. -/
noncomputable def getEquationOfTimeMinutes (dayOfYear : ℤ) : ℝ :=
  let B := 2 * Real.pi * ((dayOfYear : ℝ) - 81) / 365
  9.87 * Real.sin (2 * B) - 7.53 * Real.cos B - 1.5 * Real.sin B

/-- `getSolarNoon`: clock noon plus longitude correction (4 minutes per
degree from the 135° standard meridian) minus the equation of time. -/
noncomputable def getSolarNoon (c : CivilDate) (loc : Location) : ℝ :=
  let clockNoon : ℝ := ((noonTokyoMs c : ℚ) : ℝ)
  let standardMeridian : ℝ := 135
  let longitudeCorrectionMinutes := 4 * (standardMeridian - loc.lon)
  let eotMinutes := getEquationOfTimeMinutes (getDayOfYear c)
  clockNoon + (longitudeCorrectionMinutes - eotMinutes) * 60 * 1000

/-- The equation of time is bounded by the sum of its coefficients. -/
theorem abs_eot_le (n : ℤ) : |getEquationOfTimeMinutes n| ≤ 18.9 := by
  unfold getEquationOfTimeMinutes
  dsimp only
  set B : ℝ := 2 * Real.pi * ((n : ℝ) - 81) / 365
  have h1 := Real.neg_one_le_sin (2 * B)
  have h2 := Real.sin_le_one (2 * B)
  have h3 := Real.neg_one_le_cos B
  have h4 := Real.cos_le_one B
  have h5 := Real.neg_one_le_sin B
  have h6 := Real.sin_le_one B
  rw [abs_le]
  constructor <;> nlinarith

/-- Claim C3 (amended): for every civil date and location with
`|cos H| ≤ 1`, the sunrise and sunset instants of `getSunriseSunset` are
symmetric about the **civil clock noon** of the date (local 12:00), not the
true solar noon; `getSolarNoon` sits off that axis by exactly the
longitude-correction − equation-of-time offset. -/
theorem sunriseSunset_symmetric_civilNoon (c : CivilDate) (loc : Location)
    (_h : |sunriseCosH c loc| ≤ 1) :
    (getSunriseSunset c loc).2 - ((noonTokyoMs c : ℚ) : ℝ) =
      ((noonTokyoMs c : ℚ) : ℝ) - (getSunriseSunset c loc).1 ∧
    getSolarNoon c loc - ((noonTokyoMs c : ℚ) : ℝ) =
      (4 * (135 - loc.lon) - getEquationOfTimeMinutes (getDayOfYear c)) * 60 * 1000 := by
  constructor
  · have hsum := getSunriseSunset_sum c loc
    linarith
  · have hdef : getSolarNoon c loc = ((noonTokyoMs c : ℚ) : ℝ) +
        (4 * (135 - loc.lon) - getEquationOfTimeMinutes (getDayOfYear c)) * 60 * 1000 :=
      rfl
    rw [hdef]
    ring

/-- Witness for the amended C3 at 2026-01-01 with latitude 0 (where
`cos H = −tan 0 · tan δ = 0`, so `|cos H| ≤ 1`). -/
theorem sunriseSunset_symmetric_civilNoon_witness :
    |sunriseCosH ⟨2026, 1, 1⟩ ⟨0, 0⟩| ≤ 1 ∧
    (getSunriseSunset ⟨2026, 1, 1⟩ ⟨0, 0⟩).2 - ((noonTokyoMs ⟨2026, 1, 1⟩ : ℚ) : ℝ) =
      ((noonTokyoMs ⟨2026, 1, 1⟩ : ℚ) : ℝ) - (getSunriseSunset ⟨2026, 1, 1⟩ ⟨0, 0⟩).1 := by
  have hcos : sunriseCosH ⟨2026, 1, 1⟩ ⟨0, 0⟩ = 0 := by
    simp [sunriseCosH, Real.tan_zero]
  have habs : |sunriseCosH ⟨2026, 1, 1⟩ ⟨0, 0⟩| ≤ 1 := by
    rw [hcos]
    norm_num
  exact ⟨habs, (sunriseSunset_symmetric_civilNoon ⟨2026, 1, 1⟩ ⟨0, 0⟩ habs).1⟩

/-- Counterexample to claim C3 as stated: at the civil date 2026-01-01 and
the (non-polar: `cos H = 0`) location latitude 0°, longitude 0°, sunset −
solarNoon ≠ solarNoon − sunrise — the symmetry axis of `getSunriseSunset`
is the civil noon, and `getSolarNoon` differs from it by the 540-minute
longitude correction minus the (≤ 18.9-minute) equation of time. -/
theorem sunriseSunset_solarNoon_cex :
    |sunriseCosH ⟨2026, 1, 1⟩ ⟨0, 0⟩| ≤ 1 ∧
    ¬ ((getSunriseSunset ⟨2026, 1, 1⟩ ⟨0, 0⟩).2 - getSolarNoon ⟨2026, 1, 1⟩ ⟨0, 0⟩ =
       getSolarNoon ⟨2026, 1, 1⟩ ⟨0, 0⟩ - (getSunriseSunset ⟨2026, 1, 1⟩ ⟨0, 0⟩).1) := by
  have hcos : sunriseCosH ⟨2026, 1, 1⟩ ⟨0, 0⟩ = 0 := by
    simp [sunriseCosH, Real.tan_zero]
  refine ⟨by rw [hcos]; norm_num, ?_⟩
  intro heq
  have hsum := getSunriseSunset_sum ⟨2026, 1, 1⟩ ⟨0, 0⟩
  have hdef : getSolarNoon ⟨2026, 1, 1⟩ ⟨0, 0⟩ =
      ((noonTokyoMs ⟨2026, 1, 1⟩ : ℚ) : ℝ) +
        (4 * (135 - (0 : ℝ)) -
          getEquationOfTimeMinutes (getDayOfYear ⟨2026, 1, 1⟩)) * 60 * 1000 := rfl
  have heot := abs_eot_le (getDayOfYear ⟨2026, 1, 1⟩)
  rw [abs_le] at heot
  rw [hdef] at heq
  nlinarith [heot.1, heot.2]

/-! ## Twilight at the historical depression angle (spec §4.3) -/

/-- Modelled from the spec: the TwilightEngine dawn instant at the historical
civil-twilight depression angle −7°21′40″, i.e. target altitude
`h = −7.3611°`.  No implementation of this computation exists under `src/`
(the repository's `getAkeMutsu` is a fixed 30-minute offset); the definition
follows the specification's §4.3: hour angle from
`cos H = (sin h − sin φ · sin δ) / (cos φ · cos δ)` with `δ` the declination
at civil noon, event instant `SolarNoon − H/15` hours, and the solar-noon
`− 6 h` fallback when `|cos H| > 1`. -/
noncomputable def specTwilightDawn (c : CivilDate) (loc : Location) : ℝ :=
  let h : ℝ := -7.3611
  let φ := loc.lat * Real.pi / 180
  let δ := declination ((noonTokyoMs c : ℚ) : ℝ) * Real.pi / 180
  let cosH := (Real.sin (h * Real.pi / 180) - Real.sin φ * Real.sin δ) /
    (Real.cos φ * Real.cos δ)
  if |cosH| ≤ 1 then
    getSolarNoon c loc - Real.arccos cosH * (180 / Real.pi) / 15 * (60 * 60 * 1000)
  else
    getSolarNoon c loc - 6 * (60 * 60 * 1000)

/-- An hour-angle offset built from `arccos` never exceeds 12 hours. -/
theorem arccos_offset_le (x : ℝ) :
    Real.arccos x * (180 / Real.pi) / 15 * (60 * 60 * 1000) ≤ 43200000 := by
  have h1 : Real.arccos x ≤ Real.pi := Real.arccos_le_pi x
  have hπ : 0 < Real.pi := Real.pi_pos
  have h2 : Real.arccos x * (180 / Real.pi) ≤ 180 := by
    have hstep : Real.arccos x * (180 / Real.pi) ≤ Real.pi * (180 / Real.pi) :=
      mul_le_mul_of_nonneg_right h1 (by positivity)
    have heq : Real.pi * (180 / Real.pi) = 180 := by
      field_simp
    linarith
  linarith

/-- The spec-modelled dawn never precedes the solar noon by more than 12
hours, whichever branch is taken. -/
theorem specTwilightDawn_lb (c : CivilDate) (loc : Location) :
    getSolarNoon c loc - 43200000 ≤ specTwilightDawn c loc := by
  unfold specTwilightDawn
  dsimp only
  split_ifs
  · have := arccos_offset_le
      ((Real.sin (-7.3611 * Real.pi / 180) -
          Real.sin (loc.lat * Real.pi / 180) *
            Real.sin (declination ((noonTokyoMs c : ℚ) : ℝ) * Real.pi / 180)) /
        (Real.cos (loc.lat * Real.pi / 180) *
          Real.cos (declination ((noonTokyoMs c : ℚ) : ℝ) * Real.pi / 180)))
    linarith
  · linarith

/-- Counterexample to claim C2 as stated: at the civil date 2026-01-01 and
the location latitude 0°, longitude 0°, the ake-mutsu produced by the code
(sunrise − 30 min = civil noon − 6.5 h, since `cos H = 0` at the equator) is
not the −7°21′40″-altitude dawn instant of the specification's
TwilightEngine: the latter lies within 12 h of the true solar noon, which
itself sits ≈ 540 minutes after the civil noon at longitude 0°. -/
theorem akeMutsu_depression_cex :
    ¬ (getAkeMutsu (getSunriseSunset ⟨2026, 1, 1⟩ ⟨0, 0⟩).1 =
       specTwilightDawn ⟨2026, 1, 1⟩ ⟨0, 0⟩) := by
  have hcos : sunriseCosH ⟨2026, 1, 1⟩ ⟨0, 0⟩ = 0 := by
    simp [sunriseCosH, Real.tan_zero]
  have hπ : Real.pi ≠ 0 := Real.pi_ne_zero
  have hsunrise : (getSunriseSunset ⟨2026, 1, 1⟩ ⟨0, 0⟩).1 =
      ((noonTokyoMs ⟨2026, 1, 1⟩ : ℚ) : ℝ) - 21600000 := by
    unfold getSunriseSunset
    dsimp only
    rw [hcos]
    rw [if_pos (by norm_num : |(0 : ℝ)| ≤ 1)]
    rw [Real.arccos_zero]
    dsimp only
    field_simp
    ring
  have hlb := specTwilightDawn_lb ⟨2026, 1, 1⟩ ⟨0, 0⟩
  have hdef : getSolarNoon ⟨2026, 1, 1⟩ ⟨0, 0⟩ =
      ((noonTokyoMs ⟨2026, 1, 1⟩ : ℚ) : ℝ) +
        (4 * (135 - (0 : ℝ)) -
          getEquationOfTimeMinutes (getDayOfYear ⟨2026, 1, 1⟩)) * 60 * 1000 := rfl
  have heot := abs_eot_le (getDayOfYear ⟨2026, 1, 1⟩)
  rw [abs_le] at heot
  intro heq
  rw [hsunrise] at heq
  unfold getAkeMutsu at heq
  rw [hdef] at hlb
  nlinarith [heot.1, heot.2]

/-- Claim C2 (amended): the dawn (ake-mutsu) and dusk (kure-mutsu) instants
that seed the temporal-time system are fixed clock offsets —
exactly 30 minutes before sunrise and 30 minutes after sunset respectively —
not the instants at which the sun reaches the −7°21′40″ altitude; they still
bracket the geometric sunrise/sunset pair: dawn < sunrise ≤ sunset < dusk. -/
theorem akeMutsu_fixed_offset (c : CivilDate) (loc : Location) :
    getAkeMutsu (getSunriseSunset c loc).1 =
      (getSunriseSunset c loc).1 - 30 * 60 * 1000 ∧
    getKureMutsu (getSunriseSunset c loc).2 =
      (getSunriseSunset c loc).2 + 30 * 60 * 1000 ∧
    getAkeMutsu (getSunriseSunset c loc).1 < (getSunriseSunset c loc).1 ∧
    (getSunriseSunset c loc).1 ≤ (getSunriseSunset c loc).2 ∧
    (getSunriseSunset c loc).2 < getKureMutsu (getSunriseSunset c loc).2 := by
  refine ⟨rfl, rfl, by unfold getAkeMutsu; linarith, ?_, by unfold getKureMutsu; linarith⟩
  unfold getSunriseSunset
  dsimp only
  split_ifs with hc
  · have h0 : 0 ≤ Real.arccos (sunriseCosH c loc) := Real.arccos_nonneg _
    have hπ : 0 < Real.pi := Real.pi_pos
    have : 0 ≤ Real.arccos (sunriseCosH c loc) * (180 / Real.pi) := by positivity
    dsimp only
    nlinarith
  · dsimp only
    linarith

/-! ## Lunar calendar lookup (`lunar-calendar-data.ts`, `rokuyo.ts`,
`lunar-calendar.ts`) -/

/-- A row of the lunar reference dataset (`LunarCalendarRecord`). -/
structure LunarCalendarRecord where
  lunarYear : ℤ
  lunarMonth : ℤ
  lunarDay : ℤ
  isLeapMonth : Bool
  rokuyo : String
deriving DecidableEq

/-- Modelled from the spec: the parsed `lunar_2026_2028.csv` map
(`LUNAR_CALENDAR_MAP`).  The CSV file itself is absent from `src/`; the
specification fixes only its coverage — civil dates of the years 2026–2028,
gap-free — so the model returns a record exactly for those dates.  The
record's field values are fixed placeholders; no claim in this development
depends on them. -/
def LUNAR_CALENDAR_MAP (c : CivilDate) : Option LunarCalendarRecord :=
  if 2026 ≤ c.year ∧ c.year ≤ 2028 then
    some ⟨c.year, 1, 1, false, "大安"⟩
  else
    none

/-- `getLunarCalendarData`: key the map by the civil calendar date of the
instant (browser-local, modelled as Asia/Tokyo). -/
def getLunarCalendarData (t : ℚ) : Option LunarCalendarRecord :=
  LUNAR_CALENDAR_MAP (civilFromMs t)

/-- The exceptions thrown by `getRokuyo` and `getLunarDate` (in the source,
`Error` values with distinct Japanese messages interpolating the query
instant). -/
inductive CoreError where
  | rokuyoNotFound (c : CivilDate) : CoreError
  | lunarDataNotFound (c : CivilDate) : CoreError
deriving DecidableEq

/-- `getRokuyo` (`rokuyo.ts`, `src/unnamed/part_013`): look up the rokuyo
label, throwing when the date is absent from the table. -/
def getRokuyo (t : ℚ) : Except CoreError String :=
  match getLunarCalendarData t with
  | none => .error (.rokuyoNotFound (civilFromMs t))
  | some data => .ok data.rokuyo

/-- `getLunarDate` (`lunar-calendar.ts`): look up the lunar year/month/day,
throwing when the date is absent from the table. -/
def getLunarDate (t : ℚ) : Except CoreError (ℤ × ℤ × ℤ) :=
  match getLunarCalendarData t with
  | none => .error (.lunarDataNotFound (civilFromMs t))
  | some data => .ok (data.lunarYear, data.lunarMonth, data.lunarDay)

/-- Modelled from the spec: `getSekki72` (the `sekki-72.ts` module is absent
from `src/`).  The specification fixes the micro-season index as
`floor(((longitude − 315) mod 360) / 5) mod 72`. -/
noncomputable def getSekki72 (solarLongitude : ℝ) : ℤ :=
  (⌊normalize360 (solarLongitude - 315) / 5⌋) % 72

/-- Modelled from the spec: the `newMoonDates.json` dataset (absent from
`src/`) — an ascending list of new-moon instants in epoch milliseconds.
The two values are placeholders inside the spec's observed 2026–2028
coverage; no claim in this development depends on them. -/
def newMoonDates : List ℚ :=
  [1767236400000, 1769788800000]

/-! ## The aggregate (`core/index.ts`) -/

/-- The `EdoTimeData` aggregate assembled by `calculateEdoTime`. -/
structure EdoTimeData where
  currentTime : ℚ
  solarLongitude : ℝ
  solarTerm : String
  sekki72 : ℤ
  temporalTime : TemporalTime ℝ
  akeMutsu : ℝ
  kureMutsu : ℝ
  rokuyo : String
  lunarDate : ℤ × ℤ × ℤ
  moonAge : ℝ
  moonAgeError : Option (MoonAgeError ℝ)
  sunrise : ℝ
  sunset : ℝ
  noonForCircle : ℚ

/-- `calculateEdoTime` (`core/index.ts`): the aggregation entry point.
`toTimeZone` is modelled as the identity (browser and location both in
Asia/Tokyo, see the header).  The `getRokuyo` and `getLunarDate` exceptions
surface as `Except.error` and abort the call, exactly as an uncaught
JavaScript `throw` does; a moon-age failure is instead carried in the
`moonAgeError` field of the returned aggregate. -/
noncomputable def calculateEdoTime (date : ℚ) (loc : Location) :
    Except CoreError EdoTimeData :=
  let baseDate := date
  let solarLongitude := getSolarLongitude ((baseDate : ℚ) : ℝ)
  let c := civilFromMs baseDate
  let sunriseSunset := getSunriseSunset c loc
  let solarTerm := getSolarTerm solarLongitude
  let sekki72 := getSekki72 solarLongitude
  let temporalTime :=
    getTemporalTime sunriseSunset.1 sunriseSunset.2 ((baseDate : ℚ) : ℝ) none
  let akeMutsu := getAkeMutsu sunriseSunset.1
  let kureMutsu := getKureMutsu sunriseSunset.2
  let noonForCircle := noonTokyoMs c
  match getRokuyo baseDate with
  | .error e => .error e
  | .ok rokuyo =>
    match getLunarDate baseDate with
    | .error e => .error e
    | .ok lunarDate =>
      let moonAgeResult :=
        getMoonAge (newMoonDates.map (fun q => (q : ℝ))) ((baseDate : ℚ) : ℝ)
      .ok
        { currentTime := baseDate
          solarLongitude := solarLongitude
          solarTerm := solarTerm
          sekki72 := sekki72
          temporalTime := temporalTime
          akeMutsu := akeMutsu
          kureMutsu := kureMutsu
          rokuyo := rokuyo
          lunarDate := lunarDate
          moonAge := moonAgeResult.moonAge
          moonAgeError := moonAgeResult.error
          sunrise := sunriseSunset.1
          sunset := sunriseSunset.2
          noonForCircle := noonForCircle }

/-- Case analysis of `calculateEdoTime` on the lunar-table lookup. -/
theorem calculateEdoTime_cases (t : ℚ) (loc : Location) :
    (getLunarCalendarData t = none →
      calculateEdoTime t loc =
        Except.error (CoreError.rokuyoNotFound (civilFromMs t))) ∧
    (∀ r, getLunarCalendarData t = some r →
      ∃ agg, calculateEdoTime t loc = Except.ok agg ∧
        agg.rokuyo = r.rokuyo ∧
        agg.moonAgeError =
          (getMoonAge (newMoonDates.map (fun q => (q : ℝ))) ((t : ℚ) : ℝ)).error) := by
  constructor
  · intro hnone
    unfold calculateEdoTime getRokuyo
    dsimp only
    rw [hnone]
  · intro r hr
    unfold calculateEdoTime getRokuyo getLunarDate
    dsimp only
    rw [hr]
    exact ⟨_, rfl, rfl, rfl⟩

/-- Claim C1 (amended): `calculateEdoTime` does **not** carry the
lunar-date/rokuyo failure per-field: when the instant's civil date is
absent from the lunar reference table, the `getRokuyo` exception aborts the
whole call with an error; only the moon-age failure is per-field — when the
lookup succeeds the aggregate is returned, with `moonAgeError` carrying the
`getMoonAge` error state independently. -/
theorem calculateEdoTime_error_propagation (t : ℚ) (loc : Location) :
    (getLunarCalendarData t = none →
      calculateEdoTime t loc =
        Except.error (CoreError.rokuyoNotFound (civilFromMs t))) ∧
    (∀ r, getLunarCalendarData t = some r →
      ∃ agg, calculateEdoTime t loc = Except.ok agg ∧
        agg.rokuyo = r.rokuyo ∧
        agg.moonAgeError =
          (getMoonAge (newMoonDates.map (fun q => (q : ℝ))) ((t : ℚ) : ℝ)).error) :=
  calculateEdoTime_cases t loc

/-- Witness for the amended C1 at the instant 2026-05-01T12:00 JST (epoch
ms 1777604400000), a date inside the table's 2026–2028 coverage. -/
theorem calculateEdoTime_error_propagation_witness :
    getLunarCalendarData 1777604400000 = some ⟨2026, 1, 1, false, "大安"⟩ ∧
    ∃ agg, calculateEdoTime 1777604400000 ⟨35.6762, 139.6503⟩ = Except.ok agg ∧
      agg.rokuyo = "大安" ∧
      agg.moonAgeError =
        (getMoonAge (newMoonDates.map (fun q => (q : ℝ)))
          ((1777604400000 : ℚ) : ℝ)).error := by
  have hfl : (⌊((1777604400000 : ℚ) + 9 * 3600000) / 86400000⌋ : ℤ) = 20574 := by
    norm_num
  have hciv : civilFromMs 1777604400000 = ⟨2026, 5, 1⟩ := by
    unfold civilFromMs
    rw [hfl]
    decide
  have hlook : getLunarCalendarData 1777604400000 = some ⟨2026, 1, 1, false, "大安"⟩ := by
    unfold getLunarCalendarData
    rw [hciv]
    decide
  exact ⟨hlook,
    (calculateEdoTime_error_propagation 1777604400000 ⟨35.6762, 139.6503⟩).2
      ⟨2026, 1, 1, false, "大安"⟩ hlook⟩

/-- Counterexample to claim C1 as stated: at the instant 2025-06-15T00:00
JST (epoch ms 1749913200000), whose civil calendar date 2025-06-15 is
absent from the 2026–2028 lunar reference table, `calculateEdoTime` does
not return an `EdoTimeData` aggregate at all — the `getRokuyo` exception
aborts the whole call. -/
theorem calculateEdoTime_abort_cex :
    getLunarCalendarData 1749913200000 = none ∧
    calculateEdoTime 1749913200000 ⟨35.6762, 139.6503⟩ =
      Except.error (CoreError.rokuyoNotFound ⟨2025, 6, 15⟩) := by
  have hfl : (⌊((1749913200000 : ℚ) + 9 * 3600000) / 86400000⌋ : ℤ) = 20254 := by
    norm_num
  have hciv : civilFromMs 1749913200000 = ⟨2025, 6, 15⟩ := by
    unfold civilFromMs
    rw [hfl]
    decide
  have hlook : getLunarCalendarData 1749913200000 = none := by
    unfold getLunarCalendarData
    rw [hciv]
    decide
  refine ⟨hlook, ?_⟩
  have h := (calculateEdoTime_cases 1749913200000
    ⟨35.6762, 139.6503⟩).1 hlook
  rw [h, hciv]

end EdoTimeJp
